import Mathlib

/-!
Shallow embedding of `agent/call-scd.c` (the GnuPG agent's client module
for the smart-card daemon): the session registry, the reaper cleanup, the
PIN-cache bridge, the status-line parsers and the card operations, together
with theorems checking the specification's claims about them.

The external collaborators (libassuan transport, libgcrypt, the PIN-cache
module, process launch) are abstracted: transaction outcomes and the
AES-key-unwrap are oracle parameters, and calls into the PIN cache are
recorded as a trace.
-/

namespace CallScd

/-- Character strings are modelled as lists of characters (C strings
without the terminating NUL). -/
abbrev Str := List Char

/-- The `spacep` macro from `common/util.h`: blank or tab. -/
def spacep (c : Char) : Bool := c = ' ' || c = '\t'

/-- The `digitp` macro from `common/util.h`. -/
def digitp (c : Char) : Bool := '0' ≤ c && c ≤ '9'

/-- The `hexdigitp` macro from `common/util.h`. -/
def hexdigitp (c : Char) : Bool :=
  digitp c || ('A' ≤ c && c ≤ 'F') || ('a' ≤ c && c ≤ 'f')

/-- The first whitespace-delimited token of a line: the scan
`for (...; *line && !spacep (line); line++)` used by the status callbacks. -/
def token (s : Str) : Str := s.takeWhile (fun c => !spacep c)

/-- The rest of a line after its first token and the white space that
follows it: `while (spacep (line)) line++` after the keyword scan. -/
def restAfterToken (s : Str) : Str :=
  (s.dropWhile (fun c => !spacep c)).dropWhile spacep

/-- The helper `has_leading_keyword` from `common/stringhelp.c`: if `line`
starts with `keyword` followed by white space or end of line, return the
text after the keyword with leading white space skipped, else `none`. -/
def has_leading_keyword (line : Str) (keyword : Str) : Option Str :=
  if keyword.isPrefixOf line then
    match line.drop keyword.length with
    | [] => some []
    | c :: rest => if spacep c then some ((c :: rest).dropWhile spacep) else none
  else none

/-- The `xtoi_1` macro from `common/util.h`: value of one hex digit. -/
def xtoi_1 (c : Char) : Nat :=
  if c ≤ '9' then c.toNat - '0'.toNat
  else if c ≤ 'F' then c.toNat - 'A'.toNat + 10
  else c.toNat - 'a'.toNat + 10

/-- The `xtoi_2` macro from `common/util.h`: value of a hex-digit pair. -/
def xtoi_2 (a b : Char) : Nat := 16 * xtoi_1 a + xtoi_1 b

/-- Decode consecutive hex-digit pairs into bytes. -/
def hexPairs : Str → List Nat
  | a :: b :: rest => xtoi_2 a b :: hexPairs rest
  | _ => []

/-- Modelled from the spec: `hex2bin` (GnuPG common utility code, not part
of this excerpt) converts a run of hex digits delimited by white space or
end of string into exactly `len` bytes and fails otherwise.  Applied, as in
`handle_pincache_put`, to a whitespace-delimited field `s` with
`len = s.length / 2`, this succeeds iff `s` consists of hex digits only and
has even length. -/
def hex2bin (s : Str) (len : Nat) : Option (List Nat) :=
  if s.length = 2 * len && s.all hexdigitp then some (hexPairs s) else none

/-- The gpg-error codes used by this module; `Except GpgErr Unit` stands
for a C `gpg_error_t` value, `.ok ()` being 0 (success). -/
inductive GpgErr where
  | general
  | internal
  | conflict
  | assParameter
  | invLength
  | noScdaemon
  | notSupported
  | enomem
  | invValue
  | noData
  | assUnknownInquire
  | decryptFailed
deriving DecidableEq, Repr

/-- One call into the external PIN-cache module, recorded as a trace
event.  `put key none` is `agent_put_cache (NULL, key, CACHE_MODE_PIN,
NULL, -1)`, i.e. a flush of that key; `put key (some v)` caches value `v`
under `key`; `flushAll` is `agent_flush_cache (1)`. -/
inductive CacheOp where
  | put (key : Str) (value : Option (List Nat))
  | flushAll
deriving DecidableEq, Repr

/-- The AES-128 key-unwrap done with libgcrypt (an external collaborator):
abstracted as an oracle from the wrapped bytes to either the plaintext
bytes or a decryption error. -/
abbrev Unwrap := List Nat → Except GpgErr (List Nat)

deriving instance DecidableEq for Except

/-- `handle_pincache_put` (call-scd.c:636): parse the arguments of a
`PINCACHE_PUT` status line and drive the PIN cache.  Returns the C
function's `err` result together with the trace of cache calls.
Allocation failures are not modelled (all allocations succeed). -/
def handle_pincache_put (unwrap : Unwrap) (args : Str) :
    Except GpgErr Unit × List CacheOp :=
  let key := token args
  if key.length < 3 then (.ok (), [])
  else
    let hexwrappedpin := token (restAfterToken args)
    if hexwrappedpin.length = 0 then
      (.ok (), [.put key none])
    else if hexwrappedpin.length < 2 * 24 then
      (.ok (), [])
    else
      match hex2bin hexwrappedpin (hexwrappedpin.length / 2) with
      | none => (.error .invLength, [])
      | some wrappedpin =>
          match unwrap wrappedpin with
          | .error e => (.error e, [])
          | .ok value => (.ok (), [.put key (some value)])

/-- `pincache_put_cb` (call-scd.c:742): the status callback that
intercepts `PINCACHE_PUT` lines and ignores every other status line. -/
def pincache_put_cb (unwrap : Unwrap) (line : Str) :
    Except GpgErr Unit × List CacheOp :=
  match has_leading_keyword line ("PINCACHE_PUT".toList) with
  | some s => handle_pincache_put unwrap s
  | none => (.ok (), [])

/-- `struct scd_local_s` (call-scd.c:50): per-connection session state.
The assuan context is abstracted as an opaque numeric handle; `none`
models a NULL context pointer. -/
structure ScdLocal where
  ctx : Option Nat
  in_use : Bool
  invalid : Bool
deriving DecidableEq, Repr, Inhabited

/-- The module-global registry (call-scd.c:91-110): `scd_local_list`,
`primary_scd_ctx`, `primary_scd_ctx_reusable` and `socket_name`. -/
structure ScdState where
  scd_local_list : List ScdLocal
  primary_scd_ctx : Option Nat
  primary_scd_ctx_reusable : Bool
  socket_name : Option Str
deriving DecidableEq, Repr

/-- `unlock_scd` (call-scd.c:160): release the session after an operation,
passing the status `rc` through; when called on a session that is not in
use, a success status is replaced by `GPG_ERR_INTERNAL`.  Mutex
operations are assumed to succeed. -/
def unlock_scd (sl : ScdLocal) (rc : Except GpgErr Unit) :
    Except GpgErr Unit × ScdLocal :=
  let rc := if sl.in_use = false ∧ rc = .ok () then .error .internal else rc
  let sl := { sl with in_use := false }
  let sl := if sl.invalid then { sl with ctx := none, invalid := false } else sl
  (rc, sl)

/-- The per-session invalidation done by the reaper (call-scd.c:261-269):
mark the session invalid, and release the context of a session that is not
currently in use. -/
def invalidate_local (sl : ScdLocal) : ScdLocal :=
  let sl' := { sl with invalid := true }
  if !sl'.in_use && sl'.ctx.isSome then { sl' with ctx := none } else sl'

/-- The cleanup the reaper `wait_child_thread` performs once it has
observed the daemon's exit (call-scd.c:249-276): flush the PIN cache,
invalidate every registered session, clear the primary context, the
reusable flag and the cached socket name. -/
def wait_child_cleanup (st : ScdState) : ScdState × List CacheOp :=
  ({ scd_local_list := st.scd_local_list.map invalidate_local,
     primary_scd_ctx := none,
     primary_scd_ctx_reusable := false,
     socket_name := none }, [.flushAll])

/-- `get_serialno_cb` (call-scd.c:824): the status callback that records
the `SERIALNO` payload, raising a conflict error on a second occurrence
and a parameter error on a malformed payload, and routing `PINCACHE_PUT`
lines to the cache bridge. -/
def get_serialno_cb (unwrap : Unwrap) (serialno : Option Str) (line : Str) :
    Except GpgErr (Option Str) × List CacheOp :=
  let keyword := token line
  let rest := restAfterToken line
  if keyword = "SERIALNO".toList then
    match serialno with
    | some _ => (.error .conflict, [])
    | none =>
        let hex := rest.takeWhile hexdigitp
        let n := hex.length
        let afterOk : Bool :=
          match rest.drop n with
          | [] => true
          | c :: _ => spacep c
        if n = 0 || n % 2 = 1 || !afterOk then (.error .assParameter, [])
        else (.ok (some hex), [])
  else if keyword = "PINCACHE_PUT".toList then
    match handle_pincache_put unwrap rest with
    | (.ok _, ops) => (.ok serialno, ops)
    | (.error e, ops) => (.error e, ops)
  else (.ok serialno, [])

/-- Drive a status callback with state `σ` over the status lines of one
transaction, stopping at the first callback error, as `assuan_transact`
does. -/
def runStatus {σ : Type} (cb : σ → Str → Except GpgErr σ × List CacheOp) :
    σ → List Str → Except GpgErr σ × List CacheOp
  | st, [] => (.ok st, [])
  | st, l :: ls =>
      match cb st l with
      | (.ok st', ops) =>
          let r := runStatus cb st' ls
          (r.1, ops ++ r.2)
      | (.error e, ops) => (.error e, ops)

/-- The command line built by `agent_card_serialno` (call-scd.c:871-874). -/
def serialno_command (demand : Option Str) : Str :=
  match demand with
  | none => "SERIALNO".toList
  | some d => "SERIALNO --demand=".toList ++ d

/-- `agent_card_serialno` (call-scd.c:860).  The daemon's status lines for
the transaction are `statusLines`; the result is the transaction status,
the value stored at `*r_serialno` (`none` when the call fails and stores
nothing, `some v` when it succeeds storing `v`), and the command line
sent.  The `start_scd`/`unlock_scd` bracketing is taken on the fast path
of a session holding a live context, on which both pass the transaction
status through unchanged. -/
def agent_card_serialno (unwrap : Unwrap) (demand : Option Str)
    (statusLines : List Str) :
    Except GpgErr Unit × Option (Option Str) × Str :=
  let cmd := serialno_command demand
  match runStatus (get_serialno_cb unwrap) none statusLines with
  | (.ok serialno, _) => (.ok (), some serialno, cmd)
  | (.error e, _) => (.error e, none, cmd)

/-- One parsed KEYINFO record (`struct card_key_info_s` from agent.h):
keygrip, serial number and free-text id. -/
structure CardKeyInfo where
  keygrip : Str
  serialno : Str
  idstr : Str
deriving DecidableEq, Repr

/-- The accumulation state of `card_keyinfo_cb` (`struct
card_keyinfo_parm_s`, call-scd.c:1435): the first recorded error and the
list built so far. -/
structure KeyinfoParm where
  error : Option GpgErr
  list : List CardKeyInfo
deriving DecidableEq, Repr

/-- The KEYINFO payload parse of `card_keyinfo_cb` (call-scd.c:1473-1531),
applied to the line with the keyword and the following blanks removed:
`none` on the `parm_error` paths, otherwise the parsed record. -/
def parse_keyinfo (rest : Str) : Option CardKeyInfo :=
  let grip := rest.takeWhile hexdigitp
  if grip.length ≠ 40 then none
  else
    let l1 := rest.drop grip.length
    if l1 = [] then none
    else
      match l1.dropWhile spacep with
      | [] => none
      | c :: l2 =>
          if c ≠ 'T' then none
          else if l2 = [] then none
          else
            let l3 := l2.dropWhile spacep
            let serial := l3.takeWhile hexdigitp
            if serial.length = 0 then none
            else
              let l4 := l3.drop serial.length
              if l4 = [] then none
              else
                let l5 := l4.dropWhile spacep
                if l5 = [] then none
                else some ⟨grip, serial, l5⟩

/-- `card_keyinfo_cb` (call-scd.c:1441): accumulate KEYINFO records,
recording the first parameter error in the parm structure while returning
success from the callback, and route `PINCACHE_PUT` lines to the cache
bridge. -/
def card_keyinfo_cb (unwrap : Unwrap) (parm : KeyinfoParm) (line : Str) :
    Except GpgErr KeyinfoParm × List CacheOp :=
  let keyword := token line
  let rest := restAfterToken line
  if keyword = "KEYINFO".toList then
    match parse_keyinfo rest with
    | none =>
        let e :=
          match parm.error with
          | some e0 => e0
          | none => .assParameter
        (.ok { parm with error := some e }, [])
    | some ki => (.ok { parm with list := parm.list ++ [ki] }, [])
  else if keyword = "PINCACHE_PUT".toList then
    match handle_pincache_put unwrap rest with
    | (.ok _, ops) => (.ok parm, ops)
    | (.error e, ops) => (.error e, ops)
  else (.ok parm, [])

/-- `agent_card_keyinfo` (call-scd.c:1558).  The result is the transaction
status, the list stored at `*result` (`none` when the call fails and NULL
is left there), and the command line sent. -/
def agent_card_keyinfo (unwrap : Unwrap) (keygrip : Option Str)
    (statusLines : List Str) :
    Except GpgErr Unit × Option (List CardKeyInfo) × Str :=
  let cmd := "KEYINFO ".toList ++
    (match keygrip with
     | some g => g
     | none => "--list".toList)
  match runStatus (card_keyinfo_cb unwrap) ⟨none, []⟩ statusLines with
  | (.ok parm, _) =>
      match parm.error with
      | some e => (.error e, none, cmd)
      | none => (.ok (), some parm.list, cmd)
  | (.error e, _) => (.error e, none, cmd)

/-- `start_scd` (call-scd.c:292), restricted to its fast paths: a session
that already holds a live context is simply marked in use (lines 307-311);
a double acquire on a session without context is an internal error (lines
313-317).  The spawn/connect path (lines 319-549) drives the external
process-launch and socket collaborators and is summarised as the stable
"no scdaemon" failure it surfaces when no daemon can be provided; the
theorems below exercise only the fast path. -/
def start_scd (sl : ScdLocal) : Except GpgErr Unit × ScdLocal :=
  match sl.ctx with
  | some _ => (.ok (), { sl with in_use := true })
  | none =>
      if sl.in_use then (.error .internal, sl)
      else (.error .noScdaemon, sl)

/-- Upper-case hex digit of a nibble. -/
def hexDigit (n : Nat) : Char :=
  if n < 10 then Char.ofNat ('0'.toNat + n) else Char.ofNat ('A'.toNat + n - 10)

/-- Modelled from the spec: `bin2hex` (GnuPG common utility code, not part
of this excerpt) encodes bytes as upper-case hex-digit pairs; also the
`sprintf (p, "%02X", indata[len])` loop of `agent_card_pkdecrypt`. -/
def bin2hex (bs : List Nat) : Str :=
  bs.flatMap (fun b => [hexDigit (b / 16 % 16), hexDigit (b % 16)])

/-- `ASSUAN_LINELENGTH` from libassuan's assuan.h (1000 characters plus
CR LF): the size `DIM (line)` of the command-line buffers in this file. -/
def ASSUAN_LINELENGTH : Nat := 1002

/-- `hash_algo_option` (call-scd.c:973); the numbers are libgcrypt's
`GCRY_MD_*` enumeration values. -/
def hash_algo_option (algo : Nat) : Str :=
  if algo = 1 then "--hash=md5".toList
  else if algo = 3 then "--hash=rmd160".toList
  else if algo = 2 then "--hash=sha1".toList
  else if algo = 11 then "--hash=sha224".toList
  else if algo = 8 then "--hash=sha256".toList
  else if algo = 9 then "--hash=sha384".toList
  else if algo = 10 then "--hash=sha512".toList
  else []

/-- The outcome of one card operation: the passed-through status, the
buffer stored at the caller's result pointer (`none` = NULL), the command
lines sent to the daemon, and the session after release. -/
structure OpResult where
  rc : Except GpgErr Unit
  r_buf : Option (List Nat)
  commands : List Str
  session : ScdLocal
deriving DecidableEq, Repr

/-- `agent_card_pksign` (call-scd.c:993).  The daemon is abstracted by the
outcomes of the two `assuan_transact` calls: `setdata_rc` for the
`SETDATA` upload and `sign_rc` for the signing command, the latter
carrying the accumulated response data on success.  Inquiries and status
lines are handled inside those transacts and do not change this control
flow. -/
def agent_card_pksign (sl : ScdLocal) (use_auth_call : Bool) (keyid : Str)
    (mdalgo : Nat) (indata : List Nat)
    (setdata_rc : Except GpgErr Unit) (sign_rc : Except GpgErr (List Nat)) :
    OpResult :=
  match start_scd sl with
  | (.error e, sl1) => ⟨.error e, none, [], sl1⟩
  | (.ok _, sl1) =>
      if indata.length * 2 + 50 > ASSUAN_LINELENGTH then
        let u := unlock_scd sl1 (.error .general)
        ⟨u.1, none, [], u.2⟩
      else
        let setdataLine := "SETDATA ".toList ++ bin2hex indata
        match setdata_rc with
        | .error e =>
            let u := unlock_scd sl1 (.error e)
            ⟨u.1, none, [setdataLine], u.2⟩
        | .ok _ =>
            let signLine :=
              if use_auth_call then "PKAUTH ".toList ++ keyid
              else "PKSIGN ".toList ++ hash_algo_option mdalgo
                    ++ " ".toList ++ keyid
            match sign_rc with
            | .error e =>
                let u := unlock_scd sl1 (.error e)
                ⟨u.1, none, [setdataLine, signLine], u.2⟩
            | .ok data =>
                let u := unlock_scd sl1 (.ok ())
                ⟨u.1, some data, [setdataLine, signLine], u.2⟩

/-- Bytes carried per `SETDATA` line of `agent_card_pkdecrypt`: the loop
guard `i*2 < DIM(line)-50` (call-scd.c:1111). -/
def setdata_chunk_size : Nat := (ASSUAN_LINELENGTH - 50) / 2

/-- The chunked `SETDATA` upload lines of `agent_card_pkdecrypt`
(call-scd.c:1106-1115): `--append` from the second chunk on. -/
def setdata_lines (first : Bool) (indata : List Nat) : List Str :=
  if _hnil : indata = [] then []
  else
    ("SETDATA ".toList ++ (if first then [] else "--append ".toList)
        ++ bin2hex (indata.take setdata_chunk_size))
      :: setdata_lines false (indata.drop setdata_chunk_size)
termination_by indata.length
decreasing_by
  simp only [List.length_drop]
  have : 0 < indata.length := List.length_pos.mpr _hnil
  simp [setdata_chunk_size, ASSUAN_LINELENGTH]
  omega

/-- Run the upload loop of `agent_card_pkdecrypt`: transact each `SETDATA`
line in turn, the outcome of the i-th transact given by the oracle `rcs`;
stop at the first failure.  Returns the loop's status and the lines
actually sent. -/
def run_uploads (rcs : Nat → Except GpgErr Unit) :
    Nat → List Str → Except GpgErr Unit × List Str
  | _, [] => (.ok (), [])
  | i, l :: ls =>
      match rcs i with
      | .error e => (.error e, [l])
      | .ok _ =>
          let r := run_uploads rcs (i + 1) ls
          (r.1, l :: r.2)

/-- `agent_card_pkdecrypt` (call-scd.c:1082).  `setdata_rcs` gives the
outcome of the i-th `SETDATA` transact and `decrypt_rc` the outcome of the
`PKDECRYPT` transact with its accumulated response data.  The `PADDING`
status value is not modelled (it does not affect this control flow). -/
def agent_card_pkdecrypt (sl : ScdLocal) (keyid : Str) (indata : List Nat)
    (setdata_rcs : Nat → Except GpgErr Unit)
    (decrypt_rc : Except GpgErr (List Nat)) : OpResult :=
  match start_scd sl with
  | (.error e, sl1) => ⟨.error e, none, [], sl1⟩
  | (.ok _, sl1) =>
      let up := run_uploads setdata_rcs 0 (setdata_lines true indata)
      match up.1 with
      | .error e =>
          let u := unlock_scd sl1 (.error e)
          ⟨u.1, none, up.2, u.2⟩
      | .ok _ =>
          let decryptLine := "PKDECRYPT ".toList ++ keyid
          match decrypt_rc with
          | .error e =>
              let u := unlock_scd sl1 (.error e)
              ⟨u.1, none, up.2 ++ [decryptLine], u.2⟩
          | .ok data =>
              let u := unlock_scd sl1 (.ok ())
              ⟨u.1, some data, up.2 ++ [decryptLine], u.2⟩

/-- `agent_card_readcert` (call-scd.c:1152): a single transact whose
outcome is `transact_rc`, accumulating the certificate bytes. -/
def agent_card_readcert (sl : ScdLocal) (id : Str)
    (transact_rc : Except GpgErr (List Nat)) : OpResult :=
  match start_scd sl with
  | (.error e, sl1) => ⟨.error e, none, [], sl1⟩
  | (.ok _, sl1) =>
      let line := "READCERT ".toList ++ id
      match transact_rc with
      | .error e =>
          let u := unlock_scd sl1 (.error e)
          ⟨u.1, none, [line], u.2⟩
      | .ok data =>
          let u := unlock_scd sl1 (.ok ())
          ⟨u.1, some data, [line], u.2⟩

/-- `agent_card_readkey` (call-scd.c:1188): like `agent_card_readcert`,
but the returned bytes must form a canonical s-expression
(`gcry_sexp_canon_len`, abstracted as the oracle `canon_ok`); otherwise
the buffer is freed, NULL stored and `GPG_ERR_INV_VALUE` returned. -/
def agent_card_readkey (sl : ScdLocal) (id : Str)
    (canon_ok : List Nat → Bool)
    (transact_rc : Except GpgErr (List Nat)) : OpResult :=
  match start_scd sl with
  | (.error e, sl1) => ⟨.error e, none, [], sl1⟩
  | (.ok _, sl1) =>
      let line := "READKEY ".toList ++ id
      match transact_rc with
      | .error e =>
          let u := unlock_scd sl1 (.error e)
          ⟨u.1, none, [line], u.2⟩
      | .ok data =>
          if canon_ok data then
            let u := unlock_scd sl1 (.ok ())
            ⟨u.1, some data, [line], u.2⟩
          else
            let u := unlock_scd sl1 (.error .invValue)
            ⟨u.1, none, [line], u.2⟩

/-- One observable event of the inquiry dispatcher `inq_needpin`. -/
inductive InqEvent where
  /-- an invocation of the getpin callback: description argument, prompt
  argument, whether a PIN buffer was passed, and the passed buffer
  length -/
  | getpinCall (desc : Option Str) (prompt : Str) (hasBuf : Bool) (len : Nat)
  /-- `assuan_send_data` of the inquiry response on the daemon's context -/
  | sendData (data : List Nat)
  /-- `assuan_inquire` forwarding the inquiry line to the upstream caller -/
  | forward (line : Str)
deriving DecidableEq, Repr

/-- `inq_needpin` (call-scd.c:892).  `getpin` abstracts the PIN callback:
given the prompt and `some len` when a buffer of size `len` is passed
(`none` for the notify-only invocations), it returns the bytes it wrote
into the buffer, or an error.  `junk` is the initial content of the
secure buffer (`gcry_malloc_secure` does not clear it).  `upstream`
abstracts `assuan_inquire` on the pass-through context, available when
`passthru` is set.  Returns the callback's status and the trace of
events. -/
def inq_needpin (getpin : Str → Option Nat → Except GpgErr (List Nat))
    (junk : List Nat) (passthru : Bool)
    (upstream : Str → Except GpgErr (List Nat))
    (desc : Option Str) (line : Str) :
    Except GpgErr Unit × List InqEvent :=
  if let some s := has_leading_keyword line ("NEEDPIN".toList) then
    let pinlen := 90
    match getpin s (some pinlen) with
    | .error e => (.error e, [.getpinCall desc s true pinlen])
    | .ok pin =>
        let buf := (pin ++ junk.drop pin.length).take pinlen
        (.ok (), [.getpinCall desc s true pinlen, .sendData buf])
  else if let some s := has_leading_keyword line ("POPUPPINPADPROMPT".toList) then
    match getpin s none with
    | .error e => (.error e, [.getpinCall desc s false 1])
    | .ok _ => (.ok (), [.getpinCall desc s false 1])
  else if (has_leading_keyword line ("DISMISSPINPADPROMPT".toList)).isSome then
    match getpin [] none with
    | .error e => (.error e, [.getpinCall desc [] false 0])
    | .ok _ => (.ok (), [.getpinCall desc [] false 0])
  else if (has_leading_keyword line ("PINCACHE_GET".toList)).isSome then
    (.ok (), [])
  else if passthru then
    match upstream line with
    | .error e => (.error e, [.forward line])
    | .ok value => (.ok (), [.forward line, .sendData value])
  else
    (.error .assUnknownInquire, [])

/-- `true` for the trace events that are invocations of the getpin
callback. -/
def isGetpinCall : InqEvent → Bool
  | .getpinCall _ _ _ _ => true
  | _ => false

/-- The observable actions of `agent_card_killscd`. -/
inductive KillEvent where
  | transact (cmd : Str)
  | flushCache
deriving DecidableEq, Repr

/-- `agent_card_killscd` (call-scd.c:1678): nothing happens without a
primary context; with one, a `KILLSCD` is transacted, its outcome
`kill_rc` ignored, and the PIN cache flushed. -/
def agent_card_killscd (primary_ctx : Option Nat)
    (kill_rc : Except GpgErr Unit) : List KillEvent :=
  match primary_ctx with
  | none => []
  | some _ =>
      let _ := kill_rc
      [.transact ("KILLSCD".toList), .flushCache]

/-! ## Helper lemmas -/

theorem takeWhile_append_all {p : Char → Bool} (xs ys : Str)
    (h : ∀ a ∈ xs, p a = true) :
    (xs ++ ys).takeWhile p = xs ++ ys.takeWhile p := by
  induction xs with
  | nil => simp
  | cons a xs ih =>
      have ha : p a = true := h a (by simp)
      simp only [List.cons_append, List.takeWhile_cons, ha, if_true]
      rw [ih (fun b hb => h b (by simp [hb]))]

theorem dropWhile_append_all {p : Char → Bool} (xs ys : Str)
    (h : ∀ a ∈ xs, p a = true) :
    (xs ++ ys).dropWhile p = ys.dropWhile p := by
  induction xs with
  | nil => simp
  | cons a xs ih =>
      have ha : p a = true := h a (by simp)
      simp only [List.cons_append, List.dropWhile_cons, ha, if_true]
      exact ih (fun b hb => h b (by simp [hb]))

theorem hexdigit_false_of_space {c : Char} (h : spacep c = true) :
    hexdigitp c = false := by
  simp only [spacep, Bool.or_eq_true, decide_eq_true_eq] at h
  rcases h with rfl | rfl <;> decide

theorem space_false_of_hexdigit {c : Char} (h : hexdigitp c = true) :
    spacep c = false := by
  cases hs : spacep c with
  | false => rfl
  | true => rw [hexdigit_false_of_space hs] at h; exact absurd h (by simp)

theorem dropWhile_cons_false {p : Char → Bool} {c : Char} (l : Str)
    (h : p c = false) : (c :: l).dropWhile p = c :: l := by
  simp [List.dropWhile_cons, h]

/-- The first token of `kw ++ ' ' :: payload` is `kw` when `kw` has no
white space. -/
theorem token_keyword (kw payload : Str) (hkw : ∀ a ∈ kw, spacep a = false) :
    token (kw ++ ' ' :: payload) = kw := by
  unfold token
  rw [takeWhile_append_all _ _ (fun a ha => by simp [hkw a ha])]
  simp [List.takeWhile_cons, spacep]

/-- The rest after the first token of `kw ++ ' ' :: payload` is `payload`
with its leading white space removed. -/
theorem restAfterToken_keyword (kw payload : Str)
    (hkw : ∀ a ∈ kw, spacep a = false) :
    restAfterToken (kw ++ ' ' :: payload) = payload.dropWhile spacep := by
  unfold restAfterToken
  rw [dropWhile_append_all _ _ (fun a ha => by simp [hkw a ha])]
  simp [List.dropWhile_cons, spacep]

theorem unlock_scd_rc_of_in_use {sl : ScdLocal} (h : sl.in_use = true)
    (rc : Except GpgErr Unit) : (unlock_scd sl rc).1 = rc := by
  unfold unlock_scd
  simp [h]

theorem unlock_scd_rc_of_error (sl : ScdLocal) (e : GpgErr) :
    (unlock_scd sl (.error e)).1 = .error e := by
  unfold unlock_scd
  simp

theorem unlock_scd_not_in_use (sl : ScdLocal) (rc : Except GpgErr Unit) :
    (unlock_scd sl rc).2.in_use = false := by
  unfold unlock_scd
  dsimp only
  split <;> rfl

theorem start_scd_ok_in_use {sl sl1 : ScdLocal} {u : Unit}
    (h : start_scd sl = (.ok u, sl1)) : sl1.in_use = true := by
  unfold start_scd at h
  cases hc : sl.ctx <;> rw [hc] at h
  · by_cases hu : sl.in_use = true <;> simp [hu] at h
  · simp only [Prod.mk.injEq] at h
    rw [← h.2]

/-! ## Claim C1 -/

/-- C1 claims that every malformed `PINCACHE_PUT` payload is swallowed
with success.  This counterexample refutes it: a 48-character cryptogram
field of non-hex characters fails hex decoding, and `handle_pincache_put`
returns `GPG_ERR_INV_LENGTH` — not success — so the enclosing transaction
is failed. -/
theorem C1_counterexample :
    (handle_pincache_put (fun _ => .ok [])
        ("a/b ".toList ++ List.replicate 48 'z')).1 = .error .invLength
    ∧ (handle_pincache_put (fun _ => .ok [])
        ("a/b ".toList ++ List.replicate 48 'z')).1 ≠ .ok () := by
  constructor
  · decide
  · decide

/-- C1 (amended): a malformed `PINCACHE_PUT` payload with a too-short key
or a non-empty cryptogram shorter than 48 hex characters is logged and
swallowed with success, so the enclosing transaction continues; but a
cryptogram of at least 48 characters that fails hex decoding makes the
handler return `GPG_ERR_INV_LENGTH`, and a cryptogram whose AES-key-unwrap
fails makes it return that unwrap error, both failing the enclosing
transaction.  In every one of these cases no cache call is made. -/
theorem C1_pincache_malformed (u : Unwrap) (args key crypt : Str)
    (hkey : key = token args)
    (hcrypt : crypt = token (restAfterToken args)) :
    (key.length < 3 → handle_pincache_put u args = (.ok (), []))
  ∧ (3 ≤ key.length → 0 < crypt.length → crypt.length < 48 →
      handle_pincache_put u args = (.ok (), []))
  ∧ (3 ≤ key.length → 48 ≤ crypt.length →
      hex2bin crypt (crypt.length / 2) = none →
      handle_pincache_put u args = (.error .invLength, []))
  ∧ (∀ w e, 3 ≤ key.length → 48 ≤ crypt.length →
      hex2bin crypt (crypt.length / 2) = some w → u w = .error e →
      handle_pincache_put u args = (.error e, [])) := by
  subst hkey
  subst hcrypt
  refine ⟨?_, ?_, ?_, ?_⟩
  · intro h1
    simp only [handle_pincache_put]
    rw [if_pos h1]
  · intro h1 h2 h3
    simp only [handle_pincache_put]
    rw [if_neg (by omega), if_neg (by omega), if_pos (by omega)]
  · intro h1 h2 hhex
    simp only [handle_pincache_put]
    rw [if_neg (by omega), if_neg (by omega), if_neg (by omega), hhex]
  · intro w e h1 h2 hhex hu
    simp only [handle_pincache_put]
    rw [if_neg (by omega), if_neg (by omega), if_neg (by omega), hhex]
    dsimp only
    rw [hu]

/-- Witness for `C1_pincache_malformed`: a 47-character cryptogram (below
the 48 minimum) is swallowed with success and no cache call. -/
theorem C1_witness :
    handle_pincache_put (fun _ => .ok [])
        ("a/b ".toList ++ List.replicate 47 '0') = (.ok (), []) :=
  (C1_pincache_malformed (fun _ => .ok []) _ _ _ rfl rfl).2.1
    (by decide) (by decide) (by decide)

/-! ## Claim C2 -/

/-- C2: after the reaper observes the daemon's exit and its cleanup runs,
every registered session is marked invalid; every session not currently
in use has its connection released and set to null; every session
currently in use retains its connection; and the primary connection, the
reusable flag and the cached secondary-socket path are all cleared. -/
theorem C2_reaper_cleanup (st : ScdState) :
    ((wait_child_cleanup st).1.primary_scd_ctx = none)
  ∧ ((wait_child_cleanup st).1.primary_scd_ctx_reusable = false)
  ∧ ((wait_child_cleanup st).1.socket_name = none)
  ∧ ∀ (i : Nat) (sl : ScdLocal), st.scd_local_list[i]? = some sl →
      ∃ sl' : ScdLocal,
        (wait_child_cleanup st).1.scd_local_list[i]? = some sl'
        ∧ sl'.invalid = true
        ∧ (sl.in_use = false → sl'.ctx = none)
        ∧ (sl.in_use = true → sl'.ctx = sl.ctx) := by
  refine ⟨rfl, rfl, rfl, ?_⟩
  intro i sl h
  refine ⟨invalidate_local sl, ?_, ?_, ?_, ?_⟩
  · show (st.scd_local_list.map invalidate_local)[i]? = some (invalidate_local sl)
    rw [List.getElem?_map, h]
    rfl
  · unfold invalidate_local
    dsimp only
    split <;> rfl
  · intro hu
    unfold invalidate_local
    cases hc : sl.ctx <;> simp [hu, hc]
  · intro hu
    unfold invalidate_local
    simp [hu]

/-- Witness for `C2_reaper_cleanup`: a concrete registry with one idle and
one in-use session. -/
theorem C2_witness :
    ∃ sl' : ScdLocal, ((wait_child_cleanup
        ⟨[⟨some 7, false, false⟩, ⟨some 8, true, false⟩],
         some 7, true, some []⟩).1.scd_local_list)[0]? = some sl'
      ∧ sl'.invalid = true
      ∧ ((⟨some 7, false, false⟩ : ScdLocal).in_use = false → sl'.ctx = none)
      ∧ ((⟨some 7, false, false⟩ : ScdLocal).in_use = true →
          sl'.ctx = (⟨some 7, false, false⟩ : ScdLocal).ctx) :=
  (C2_reaper_cleanup
      ⟨[⟨some 7, false, false⟩, ⟨some 8, true, false⟩],
       some 7, true, some []⟩).2.2.2 0 ⟨some 7, false, false⟩ (by decide)

/-! ## Claim C3 -/

theorem runStatus_cons {σ : Type} (cb : σ → Str → Except GpgErr σ × List CacheOp)
    (st : σ) (l : Str) (ls : List Str) :
    runStatus cb st (l :: ls) =
      match cb st l with
      | (.ok st', ops) =>
          ((runStatus cb st' ls).1, ops ++ (runStatus cb st' ls).2)
      | (.error e, ops) => (.error e, ops) := by
  rfl

theorem get_serialno_cb_valid (u : Unwrap) (hex : Str) (hne : hex ≠ [])
    (hall : hex.all hexdigitp = true) (heven : hex.length % 2 = 0) :
    get_serialno_cb u none ("SERIALNO".toList ++ ' ' :: hex)
      = (.ok (some hex), []) := by
  have hkw : ∀ a ∈ ("SERIALNO".toList : Str), spacep a = false := by decide
  have hdw : hex.dropWhile spacep = hex := by
    cases hex with
    | nil => rfl
    | cons c tl =>
        exact dropWhile_cons_false _
          (space_false_of_hexdigit (List.all_eq_true.mp hall c (by simp)))
  have htake : hex.takeWhile hexdigitp = hex :=
    List.takeWhile_eq_self_iff.mpr (fun x hx => List.all_eq_true.mp hall x hx)
  have hd0 : (decide (hex.length = 0)) = false :=
    decide_eq_false (fun hz => hne (List.length_eq_zero.mp hz))
  have hd1 : (decide (hex.length % 2 = 1)) = false :=
    decide_eq_false (by omega)
  simp only [get_serialno_cb, token_keyword _ _ hkw,
    restAfterToken_keyword _ _ hkw, hdw]
  rw [if_pos trivial, htake, List.drop_length]
  simp [hd0, hd1, hne]

theorem get_serialno_cb_conflict (u : Unwrap) (hex t : Str) :
    get_serialno_cb u (some hex) ("SERIALNO".toList ++ ' ' :: t)
      = (.error .conflict, []) := by
  have hkw : ∀ a ∈ ("SERIALNO".toList : Str), spacep a = false := by decide
  simp only [get_serialno_cb, token_keyword _ _ hkw]
  rw [if_pos trivial]

theorem get_serialno_cb_bad (u : Unwrap) (p : Str)
    (hstrip : p.dropWhile spacep = p)
    (hbad : (p.takeWhile hexdigitp).length % 2 = 1
      ∨ ∃ c r', p.drop (p.takeWhile hexdigitp).length = c :: r'
          ∧ spacep c = false) :
    get_serialno_cb u none ("SERIALNO".toList ++ ' ' :: p)
      = (.error .assParameter, []) := by
  have hkw : ∀ a ∈ ("SERIALNO".toList : Str), spacep a = false := by decide
  simp only [get_serialno_cb, token_keyword _ _ hkw,
    restAfterToken_keyword _ _ hkw, hstrip]
  rw [if_pos trivial]
  rcases hbad with hodd | ⟨c, r', heq, hc⟩
  · have hd1 : decide ((p.takeWhile hexdigitp).length % 2 = 1) = true :=
      decide_eq_true hodd
    simp [hd1]
  · rw [heq]
    simp [hc]

/-- C3: `agent_card_serialno` with no demand filter sends exactly the
command line `SERIALNO`; a single `SERIALNO 1234ABCD` status line yields
that hex string and success; a second `SERIALNO` status line in the same
transaction yields a conflict error and no result; and a `SERIALNO`
payload whose hex part has odd length or an embedded non-hex character
not followed by a space or end of line yields a parameter error. -/
theorem C3_serialno (u : Unwrap) :
    (serialno_command none = "SERIALNO".toList)
  ∧ (∀ hex : Str, hex ≠ [] → hex.all hexdigitp = true →
       hex.length % 2 = 0 →
       agent_card_serialno u none [("SERIALNO".toList ++ ' ' :: hex)]
         = (.ok (), some (some hex), "SERIALNO".toList))
  ∧ (∀ hex t : Str, hex ≠ [] → hex.all hexdigitp = true →
       hex.length % 2 = 0 →
       agent_card_serialno u none
           [("SERIALNO".toList ++ ' ' :: hex),
            ("SERIALNO".toList ++ ' ' :: t)]
         = (.error .conflict, none, "SERIALNO".toList))
  ∧ (∀ p : Str, p.dropWhile spacep = p →
       ((p.takeWhile hexdigitp).length % 2 = 1
         ∨ ∃ c r', p.drop (p.takeWhile hexdigitp).length = c :: r'
             ∧ spacep c = false) →
       agent_card_serialno u none [("SERIALNO".toList ++ ' ' :: p)]
         = (.error .assParameter, none, "SERIALNO".toList)) := by
  refine ⟨rfl, ?_, ?_, ?_⟩
  · intro hex h1 h2 h3
    unfold agent_card_serialno
    rw [runStatus_cons, get_serialno_cb_valid u hex h1 h2 h3]
    rfl
  · intro hex t h1 h2 h3
    unfold agent_card_serialno
    rw [runStatus_cons, get_serialno_cb_valid u hex h1 h2 h3]
    dsimp only
    rw [runStatus_cons, get_serialno_cb_conflict u hex t]
    rfl
  · intro p h1 h2
    unfold agent_card_serialno
    rw [runStatus_cons, get_serialno_cb_bad u p h1 h2]
    rfl

/-- Witness for `C3_serialno`: the literal `SERIALNO 1234ABCD` scenario. -/
theorem C3_witness :
    agent_card_serialno (fun _ => .ok []) none
        [("SERIALNO".toList ++ ' ' :: "1234ABCD".toList)]
      = (.ok (), some (some ("1234ABCD".toList)), "SERIALNO".toList) :=
  (C3_serialno (fun _ => .ok [])).2.1 ("1234ABCD".toList)
    (by decide) (by decide) (by decide)

/-! ## Claim C4 -/

theorem parse_keyinfo_good (grip serial id : Str)
    (hg40 : grip.length = 40) (hgall : grip.all hexdigitp = true)
    (hsne : serial ≠ []) (hsall : serial.all hexdigitp = true)
    (hidne : id ≠ []) (hidstrip : id.dropWhile spacep = id) :
    parse_keyinfo (grip ++ ' ' :: 'T' :: ' ' :: (serial ++ ' ' :: id))
      = some ⟨grip, serial, id⟩ := by
  have hgall' : ∀ a ∈ grip, hexdigitp a = true :=
    fun a ha => List.all_eq_true.mp hgall a ha
  have hsall' : ∀ a ∈ serial, hexdigitp a = true :=
    fun a ha => List.all_eq_true.mp hsall a ha
  have htake1 :
      (grip ++ ' ' :: 'T' :: ' ' :: (serial ++ ' ' :: id)).takeWhile hexdigitp
        = grip := by
    rw [takeWhile_append_all _ _ hgall']
    simp [List.takeWhile_cons, hexdigitp, digitp]
  have hdrop1 :
      (grip ++ ' ' :: 'T' :: ' ' :: (serial ++ ' ' :: id)).drop grip.length
        = ' ' :: 'T' :: ' ' :: (serial ++ ' ' :: id) := List.drop_left _ _
  have hdw2 : (' ' :: (serial ++ ' ' :: id)).dropWhile spacep
      = serial ++ ' ' :: id := by
    rw [List.dropWhile_cons]
    rw [if_pos (by decide)]
    cases serial with
    | nil => exact absurd rfl hsne
    | cons c tl =>
        simp only [List.cons_append]
        exact dropWhile_cons_false _ (space_false_of_hexdigit (hsall' c (by simp)))
  have htake2 : (serial ++ ' ' :: id).takeWhile hexdigitp = serial := by
    rw [takeWhile_append_all _ _ hsall']
    simp [List.takeWhile_cons, hexdigitp, digitp]
  have hdrop2 : (serial ++ ' ' :: id).drop serial.length = ' ' :: id :=
    List.drop_left _ _
  have hdw3 : (' ' :: id).dropWhile spacep = id := by
    rw [List.dropWhile_cons, if_pos (by decide)]
    exact hidstrip
  simp only [parse_keyinfo, htake1]
  rw [if_neg (by simp [hg40]), hdrop1]
  rw [if_neg (by simp)]
  rw [show (' ' :: 'T' :: ' ' :: (serial ++ ' ' :: id)).dropWhile spacep
      = 'T' :: ' ' :: (serial ++ ' ' :: id) by
    rw [List.dropWhile_cons, if_pos (by decide), List.dropWhile_cons,
      if_neg (by decide)]]
  dsimp only
  rw [if_neg (by decide), if_neg (by simp), hdw2, htake2]
  rw [if_neg (by simp [List.length_eq_zero, hsne]), hdrop2]
  rw [if_neg (by simp), hdw3, if_neg hidne]

theorem card_keyinfo_cb_bad (u : Unwrap) (p : Str)
    (hstrip : p.dropWhile spacep = p)
    (hlen : (p.takeWhile hexdigitp).length ≠ 40) :
    card_keyinfo_cb u ⟨none, []⟩ ("KEYINFO".toList ++ ' ' :: p)
      = (.ok ⟨some .assParameter, []⟩, []) := by
  have hkw : ∀ a ∈ ("KEYINFO".toList : Str), spacep a = false := by decide
  have hparse : parse_keyinfo p = none := by
    simp only [parse_keyinfo]
    rw [if_pos hlen]
  simp only [card_keyinfo_cb, token_keyword _ _ hkw,
    restAfterToken_keyword _ _ hkw, hstrip]
  rw [if_pos trivial, hparse]

theorem card_keyinfo_cb_good (u : Unwrap) (grip serial id : Str)
    (hg40 : grip.length = 40) (hgall : grip.all hexdigitp = true)
    (hsne : serial ≠ []) (hsall : serial.all hexdigitp = true)
    (hidne : id ≠ []) (hidstrip : id.dropWhile spacep = id) :
    card_keyinfo_cb u ⟨none, []⟩
        ("KEYINFO".toList ++ ' ' ::
          (grip ++ ' ' :: 'T' :: ' ' :: (serial ++ ' ' :: id)))
      = (.ok ⟨none, [⟨grip, serial, id⟩]⟩, []) := by
  have hkw : ∀ a ∈ ("KEYINFO".toList : Str), spacep a = false := by decide
  have hgne : grip ≠ [] := by
    intro h
    rw [h] at hg40
    simp at hg40
  have hpstrip :
      (grip ++ ' ' :: 'T' :: ' ' :: (serial ++ ' ' :: id)).dropWhile spacep
        = grip ++ ' ' :: 'T' :: ' ' :: (serial ++ ' ' :: id) := by
    cases grip with
    | nil => exact absurd rfl hgne
    | cons c tl =>
        simp only [List.cons_append]
        exact dropWhile_cons_false _
          (space_false_of_hexdigit (List.all_eq_true.mp hgall c (by simp)))
  simp only [card_keyinfo_cb, token_keyword _ _ hkw,
    restAfterToken_keyword _ _ hkw, hpstrip]
  rw [if_pos trivial,
    parse_keyinfo_good grip serial id hg40 hgall hsne hsall hidne hidstrip]
  rfl

/-- C4: a `KEYINFO` status line whose leading keygrip field has any number
of hex characters other than exactly 40 makes the whole
`agent_card_keyinfo` operation fail with a parameter error and store NULL
at the result; with exactly 40 hex characters (and the remaining tokens as
the grammar demands) it parses into a record whose keygrip, serial-number
and id fields are populated from the line's remaining tokens. -/
theorem C4_keyinfo (u : Unwrap) :
    (∀ p : Str, p.dropWhile spacep = p →
       (p.takeWhile hexdigitp).length ≠ 40 →
       agent_card_keyinfo u none [("KEYINFO".toList ++ ' ' :: p)]
         = (.error .assParameter, none, "KEYINFO --list".toList))
  ∧ (∀ grip serial id : Str,
       grip.length = 40 → grip.all hexdigitp = true →
       serial ≠ [] → serial.all hexdigitp = true →
       id ≠ [] → id.dropWhile spacep = id →
       agent_card_keyinfo u none
           [("KEYINFO".toList ++ ' ' ::
              (grip ++ ' ' :: 'T' :: ' ' :: (serial ++ ' ' :: id)))]
         = (.ok (), some [⟨grip, serial, id⟩], "KEYINFO --list".toList)) := by
  constructor
  · intro p h1 h2
    unfold agent_card_keyinfo
    rw [runStatus_cons, card_keyinfo_cb_bad u p h1 h2]
    rfl
  · intro grip serial id h1 h2 h3 h4 h5 h6
    unfold agent_card_keyinfo
    rw [runStatus_cons, card_keyinfo_cb_good u grip serial id h1 h2 h3 h4 h5 h6]
    rfl

/-- Witness for `C4_keyinfo`: a 39-hex-digit grip is rejected with a
parameter error and a NULL result, and a well-formed line with a 40-hex
grip parses into the expected record. -/
theorem C4_witness :
    agent_card_keyinfo (fun _ => .ok []) none
        [("KEYINFO".toList ++ ' ' :: (List.replicate 39 'A'))]
      = (.error .assParameter, none, "KEYINFO --list".toList)
  ∧ agent_card_keyinfo (fun _ => .ok []) none
        [("KEYINFO".toList ++ ' ' :: (List.replicate 40 'A' ++ ' ' :: 'T' :: ' ' ::
            ("1234".toList ++ ' ' :: "OPENPGP.1".toList)))]
      = (.ok (), some [⟨List.replicate 40 'A', "1234".toList, "OPENPGP.1".toList⟩],
         "KEYINFO --list".toList) :=
  ⟨(C4_keyinfo (fun _ => .ok [])).1 (List.replicate 39 'A')
      (by decide) (by decide),
   (C4_keyinfo (fun _ => .ok [])).2 (List.replicate 40 'A') ("1234".toList)
      ("OPENPGP.1".toList) (by decide) (by decide) (by decide) (by decide)
      (by decide) (by decide)⟩

/-! ## Claim C5 -/

/-- C5: a `PINCACHE_PUT` status line whose key token is at least 3
characters long and whose cryptogram field is empty makes exactly one
cache call, a flush (put of a null value) for that exact key, and never a
put of a value. -/
theorem C5_pincache_empty_flush (u : Unwrap) (args key : Str)
    (hkey : key = token args) (hlen : 3 ≤ key.length)
    (hempty : token (restAfterToken args) = []) :
    handle_pincache_put u args = (.ok (), [.put key none]) := by
  subst hkey
  simp only [handle_pincache_put, hempty]
  rw [if_neg (by omega)]
  simp

/-- Witness for `C5_pincache_empty_flush`: the directive `PINCACHE_PUT
a/b` (no cryptogram) flushes the key `a/b`. -/
theorem C5_witness :
    handle_pincache_put (fun _ => .ok []) ("a/b".toList)
      = (.ok (), [.put ("a/b".toList) none]) :=
  C5_pincache_empty_flush (fun _ => .ok []) ("a/b".toList) ("a/b".toList)
    (by decide) (by decide) (by decide)

/-! ## Claim C6 -/

theorem pksign_error_no_buf (sl : ScdLocal) (ua : Bool) (keyid : Str)
    (mdalgo : Nat) (indata : List Nat) (sr : Except GpgErr Unit)
    (gr : Except GpgErr (List Nat)) (e : GpgErr)
    (h : (agent_card_pksign sl ua keyid mdalgo indata sr gr).rc = .error e) :
    (agent_card_pksign sl ua keyid mdalgo indata sr gr).r_buf = none := by
  unfold agent_card_pksign at h ⊢
  rcases hs : start_scd sl with ⟨rc0, sl1⟩
  rw [hs] at h
  cases rc0 with
  | error e0 => rfl
  | ok u =>
      dsimp only at h ⊢
      by_cases hlen : indata.length * 2 + 50 > ASSUAN_LINELENGTH
      · rw [if_pos hlen]
      · rw [if_neg hlen] at h ⊢
        cases sr with
        | error e1 => rfl
        | ok _ =>
            dsimp only at h ⊢
            cases gr with
            | error e2 => rfl
            | ok data =>
                dsimp only at h
                rw [unlock_scd_rc_of_in_use (start_scd_ok_in_use hs)] at h
                exact absurd h (by simp)

theorem pkdecrypt_error_no_buf (sl : ScdLocal) (keyid : Str)
    (indata : List Nat) (rcs : Nat → Except GpgErr Unit)
    (dr : Except GpgErr (List Nat)) (e : GpgErr)
    (h : (agent_card_pkdecrypt sl keyid indata rcs dr).rc = .error e) :
    (agent_card_pkdecrypt sl keyid indata rcs dr).r_buf = none := by
  unfold agent_card_pkdecrypt at h ⊢
  rcases hs : start_scd sl with ⟨rc0, sl1⟩
  rw [hs] at h
  cases rc0 with
  | error e0 => rfl
  | ok u =>
      dsimp only at h ⊢
      cases hup : (run_uploads rcs 0 (setdata_lines true indata)).1 with
      | error e1 => rfl
      | ok _ =>
          rw [hup] at h
          dsimp only at h ⊢
          cases dr with
          | error e2 => rfl
          | ok data =>
              dsimp only at h
              rw [unlock_scd_rc_of_in_use (start_scd_ok_in_use hs)] at h
              exact absurd h (by simp)

theorem readcert_error_no_buf (sl : ScdLocal) (id : Str)
    (tr : Except GpgErr (List Nat)) (e : GpgErr)
    (h : (agent_card_readcert sl id tr).rc = .error e) :
    (agent_card_readcert sl id tr).r_buf = none := by
  unfold agent_card_readcert at h ⊢
  rcases hs : start_scd sl with ⟨rc0, sl1⟩
  rw [hs] at h
  cases rc0 with
  | error e0 => rfl
  | ok u =>
      dsimp only at h ⊢
      cases tr with
      | error e1 => rfl
      | ok data =>
          dsimp only at h
          rw [unlock_scd_rc_of_in_use (start_scd_ok_in_use hs)] at h
          exact absurd h (by simp)

theorem readkey_error_no_buf (sl : ScdLocal) (id : Str)
    (canon_ok : List Nat → Bool) (tr : Except GpgErr (List Nat)) (e : GpgErr)
    (h : (agent_card_readkey sl id canon_ok tr).rc = .error e) :
    (agent_card_readkey sl id canon_ok tr).r_buf = none := by
  unfold agent_card_readkey at h ⊢
  rcases hs : start_scd sl with ⟨rc0, sl1⟩
  rw [hs] at h
  cases rc0 with
  | error e0 => rfl
  | ok u =>
      dsimp only at h ⊢
      cases tr with
      | error e1 => rfl
      | ok data =>
          dsimp only at h ⊢
          by_cases hc : canon_ok data = true
          · rw [if_pos hc] at h
            dsimp only at h
            rw [unlock_scd_rc_of_in_use (start_scd_ok_in_use hs)] at h
            exact absurd h (by simp)
          · rw [if_neg hc]

/-- C6: for every card operation that accumulates response data (sign,
decrypt, read certificate, read key), if the transaction returns an error
then the accumulated data buffer is discarded, NULL is stored at the
caller's result pointer, and the error is propagated; the caller never
receives part of a result. -/
theorem C6_no_partial_result (sl : ScdLocal) (e : GpgErr) :
    (∀ ua keyid mdalgo indata sr gr,
       (agent_card_pksign sl ua keyid mdalgo indata sr gr).rc = .error e →
       (agent_card_pksign sl ua keyid mdalgo indata sr gr).r_buf = none)
  ∧ (∀ keyid indata rcs dr,
       (agent_card_pkdecrypt sl keyid indata rcs dr).rc = .error e →
       (agent_card_pkdecrypt sl keyid indata rcs dr).r_buf = none)
  ∧ (∀ id tr,
       (agent_card_readcert sl id tr).rc = .error e →
       (agent_card_readcert sl id tr).r_buf = none)
  ∧ (∀ id canon_ok tr,
       (agent_card_readkey sl id canon_ok tr).rc = .error e →
       (agent_card_readkey sl id canon_ok tr).r_buf = none) :=
  ⟨fun ua keyid mdalgo indata sr gr h =>
      pksign_error_no_buf sl ua keyid mdalgo indata sr gr e h,
   fun keyid indata rcs dr h =>
      pkdecrypt_error_no_buf sl keyid indata rcs dr e h,
   fun id tr h => readcert_error_no_buf sl id tr e h,
   fun id canon_ok tr h => readkey_error_no_buf sl id canon_ok tr e h⟩

/-- Witness for `C6_no_partial_result`: a signing transaction that fails
with a general error stores NULL at the result pointer. -/
theorem C6_witness :
    (agent_card_pksign ⟨some 1, false, false⟩ false [] 0 []
        (.ok ()) (.error .general)).r_buf = none :=
  (C6_no_partial_result ⟨some 1, false, false⟩ .general).1
    false [] 0 [] (.ok ()) (.error .general) (by decide)

/-! ## Claim C7 -/

/-- C7 claims `release(session, status)` returns the status unchanged for
every session and status.  This counterexample refutes it: on a session
that is not in use, a success status is replaced by `GPG_ERR_INTERNAL`. -/
theorem C7_counterexample :
    (unlock_scd ⟨some 1, false, false⟩ (.ok ())).1 ≠ .ok () := by
  decide

/-- C7 (amended): `unlock_scd` returns the passed-through status unchanged
whenever the session is in use, and also for every failure status; only
when called on a session not marked in use — a caller bug it logs — does
it replace a success status by `GPG_ERR_INTERNAL`. -/
theorem C7_release_passthru (sl : ScdLocal) (rc : Except GpgErr Unit) :
    (sl.in_use = true → (unlock_scd sl rc).1 = rc)
  ∧ (rc ≠ .ok () → (unlock_scd sl rc).1 = rc)
  ∧ (sl.in_use = false → rc = .ok () →
      (unlock_scd sl rc).1 = .error .internal) := by
  refine ⟨?_, ?_, ?_⟩
  · intro h
    simp [unlock_scd, h]
  · intro h
    simp [unlock_scd, h]
  · intro h1 h2
    simp [unlock_scd, h1, h2]

/-- Witness for `C7_release_passthru`: an in-use session passes a success
status through unchanged. -/
theorem C7_witness :
    (unlock_scd ⟨some 1, true, false⟩ (.ok ())).1 = .ok () :=
  (C7_release_passthru ⟨some 1, true, false⟩ (.ok ())).1 rfl

/-! ## Claim C8 -/

/-- C8 claims the kill operation flushes the PIN cache in every call,
regardless of the daemon's state.  This counterexample refutes it: with no
primary context, `agent_card_killscd` returns immediately and no flush
happens. -/
theorem C8_counterexample :
    agent_card_killscd none (.ok ()) = []
    ∧ KillEvent.flushCache ∉ agent_card_killscd none (.ok ()) := by
  constructor
  · rfl
  · decide

theorem isPrefixOf_append_self (xs ys : Str) :
    xs.isPrefixOf (xs ++ ys) = true := by
  induction xs with
  | nil => simp
  | cons a xs ih => simp [List.isPrefixOf, ih]

theorem setdata_isPrefixOf_p_cons (tail : Str) :
    (['S', 'E', 'T', 'D', 'A', 'T', 'A', ' '] : Str).isPrefixOf ('P' :: tail)
      = false := by
  simp [List.isPrefixOf]

/-! ## Claim C9 -/

/-- C9: `agent_card_pksign` never chunks its input: when the hex encoding
plus command overhead exceeds one protocol line (`2*indatalen + 50` above
the 1002-byte line buffer) it fails with `GPG_ERR_GENERAL` before sending
any command and the session is released; below that bound the input is
uploaded in a single `SETDATA` command carrying the whole hex encoding. -/
theorem C9_pksign_single_line (sl : ScdLocal) (c : Nat) (hctx : sl.ctx = some c)
    (ua : Bool) (keyid : Str) (mdalgo : Nat) (indata : List Nat)
    (sr : Except GpgErr Unit) (gr : Except GpgErr (List Nat)) :
    (indata.length * 2 + 50 > ASSUAN_LINELENGTH →
       (agent_card_pksign sl ua keyid mdalgo indata sr gr).rc = .error .general
       ∧ (agent_card_pksign sl ua keyid mdalgo indata sr gr).commands = []
       ∧ (agent_card_pksign sl ua keyid mdalgo indata sr gr).session.in_use
           = false)
  ∧ (indata.length * 2 + 50 ≤ ASSUAN_LINELENGTH →
       ((agent_card_pksign sl ua keyid mdalgo indata sr gr).commands.filter
           (fun l => ("SETDATA ".toList).isPrefixOf l)).length = 1
       ∧ (agent_card_pksign sl ua keyid mdalgo indata sr gr).commands.head?
           = some ("SETDATA ".toList ++ bin2hex indata)) := by
  have hstart : start_scd sl = (.ok (), { sl with in_use := true }) := by
    unfold start_scd
    rw [hctx]
  have hset : ("SETDATA ".toList).isPrefixOf ("SETDATA ".toList ++ bin2hex indata)
      = true := isPrefixOf_append_self _ _
  constructor
  · intro hbig
    unfold agent_card_pksign
    rw [hstart]
    dsimp only
    rw [if_pos hbig]
    dsimp only
    exact ⟨unlock_scd_rc_of_error _ _, rfl, unlock_scd_not_in_use _ _⟩
  · intro hsmall
    unfold agent_card_pksign
    rw [hstart]
    dsimp only
    rw [if_neg (by omega)]
    cases sr with
    | error e1 =>
        dsimp only
        constructor
        · simp [List.filter, hset]
        · rfl
    | ok _ =>
        dsimp only
        cases gr with
        | error e2 =>
            dsimp only
            cases ua <;>
              exact ⟨by simp [List.filter, hset, setdata_isPrefixOf_p_cons], rfl⟩
        | ok data =>
            dsimp only
            cases ua <;>
              exact ⟨by simp [List.filter, hset, setdata_isPrefixOf_p_cons], rfl⟩

/-- Witness for `C9_pksign_single_line`: a 477-byte input (954 hex digits
plus overhead exceeds the 1002-byte line) is rejected with a general
error and no command is sent. -/
theorem C9_witness :
    (agent_card_pksign ⟨some 1, false, false⟩ false [] 0
        (List.replicate 477 0) (.ok ()) (.ok [])).commands = [] :=
  ((C9_pksign_single_line ⟨some 1, false, false⟩ 1 rfl false [] 0
      (List.replicate 477 0) (.ok ()) (.ok [])).1
    (by rw [List.length_replicate]; decide)).2.1

/-! ## Claim C10 -/

/-- C10: for every `NEEDPIN` inquiry a fixed 90-byte secure buffer is
allocated, the PIN callback is invoked exactly once with the operation's
description text and that buffer, and on callback success all 90 bytes of
the buffer are sent as the inquiry response regardless of the actual PIN's
length. -/
theorem C10_needpin_90_bytes
    (getpin : Str → Option Nat → Except GpgErr (List Nat))
    (junk : List Nat) (pt : Bool) (upstream : Str → Except GpgErr (List Nat))
    (desc : Option Str) (line s : Str) (pin : List Nat)
    (hline : has_leading_keyword line ("NEEDPIN".toList) = some s)
    (hjunk : junk.length = 90)
    (hpin : getpin s (some 90) = .ok pin) :
    inq_needpin getpin junk pt upstream desc line
      = (.ok (), [.getpinCall desc s true 90,
                  .sendData ((pin ++ junk.drop pin.length).take 90)])
  ∧ ((inq_needpin getpin junk pt upstream desc line).2.filter
        isGetpinCall).length = 1
  ∧ ((pin ++ junk.drop pin.length).take 90).length = 90 := by
  have hrun : inq_needpin getpin junk pt upstream desc line
      = (.ok (), [.getpinCall desc s true 90,
                  .sendData ((pin ++ junk.drop pin.length).take 90)]) := by
    unfold inq_needpin
    rw [hline]
    dsimp only
    rw [hpin]
  refine ⟨hrun, ?_, ?_⟩
  · rw [hrun]
    simp [List.filter, isGetpinCall]
  · simp only [List.length_take, List.length_append, List.length_drop, hjunk]
    omega

/-- Witness for `C10_needpin_90_bytes`: a concrete `NEEDPIN` inquiry with
a 3-byte PIN still sends a 90-byte response. -/
theorem C10_witness :
    inq_needpin (fun _ _ => .ok [1, 2, 3]) (List.replicate 90 0) false
        (fun _ => .ok []) none ("NEEDPIN PIN required".toList)
      = (.ok (), [.getpinCall none ("PIN required".toList) true 90,
                  .sendData (([1, 2, 3] ++ (List.replicate 90 0).drop 3).take 90)]) :=
  (C10_needpin_90_bytes (fun _ _ => .ok [1, 2, 3]) (List.replicate 90 0) false
      (fun _ => .ok []) none ("NEEDPIN PIN required".toList)
      ("PIN required".toList) [1, 2, 3] (by decide) (by decide) rfl).1

/-- C8 (amended): when a primary context exists, `agent_card_killscd`
transacts a best-effort `KILLSCD` whose outcome it ignores and then
flushes the PIN cache unconditionally; when no primary context exists the
call returns immediately and does nothing. -/
theorem C8_killscd (kill_rc : Except GpgErr Unit) :
    (∀ c : Nat, agent_card_killscd (some c) kill_rc
        = [.transact ("KILLSCD".toList), .flushCache])
  ∧ agent_card_killscd none kill_rc = [] :=
  ⟨fun _ => rfl, rfl⟩
